import Mathlib

/-!
# Verification of the Solana DeFi strategy optimizer (src/main.py)

A shallow embedding of the mocked trading bot in `src/main.py`.  Python
floats are modelled as exact rationals (`ℚ`), Python `int(...)` as
truncation toward zero (`pyInt`), Python `None` / absent dict keys as
`Option`, and each call to `random.uniform(lo, hi)` as an explicit
parameter constrained to `[lo, hi]` in the theorems.  Console output is
not modelled except where the spec's claims require distinguishing
execution steps, where it is modelled as an explicit effect list.
-/

namespace DefiOptimizer

/-! ## Constants (src/main.py lines 125-131) -/

def SOL_MINT : String := "So11111111111111111111111111111111111111112"

def USDC_MINT : String := "EPjFWdd5AufqSSqeM2qN1xzybapC8G4wEGGkZwyTDt1v"

def RAY_MINT : String := "4k3Dyjzvzp8eMZWunexHQvE5dfQqj5ihYiqg5wsNFgsw"

def SOL_DECIMALS : ℕ := 9

def USDC_DECIMALS : ℕ := 6

def RAY_DECIMALS : ℕ := 6

/-! ## Python primitives -/

/-- Python `int(x)` applied to a float: truncation toward zero. -/
def pyInt (q : ℚ) : ℤ := if q < 0 then -⌊-q⌋ else ⌊q⌋

/-- Python truthiness of an optional string value: `None` and the empty
string are falsy, every other string is truthy. -/
def pyTruthyStr : Option String → Bool
  | none => false
  | some s => !s.isEmpty

/-! ## MockMarketData (src/main.py lines 9-44)

The `_prices` dict is modelled as a partial map from mint strings to
rational prices; `_apys` likewise.  The `_last_update` five-second timer
is modelled by a boolean `elapsed` flag supplied with each operation
(the invariant proved below holds for every possible timer behaviour).
The `random.uniform` draw inside `_simulate_fluctuation` is the `u`
parameter. -/

structure MarketState where
  prices : String → Option ℚ
  apys : String → Option ℚ

/-- `MockMarketData.__init__`: SOL at 170.0, USDC at 1.0, RAY at 0.5;
Jupiter SOL-USDC APY 5%, Raydium SOL-USDC APY 4%. -/
def initMarketState : MarketState :=
  { prices := fun m =>
      if m = SOL_MINT then some 170
      else if m = USDC_MINT then some 1
      else if m = RAY_MINT then some (1/2)
      else none
    apys := fun k =>
      if k = "Jupiter_SOL-USDC" then some (5/100)
      else if k = "Raydium_SOL-USDC" then some (4/100)
      else none }

/-- `MockMarketData._simulate_fluctuation`: when more than five seconds
have elapsed (the `elapsed` flag) the stored price is replaced by
`current_price + current_price * u` where `u` is the uniform draw in
`[-max_percent_change, max_percent_change]`; the (possibly updated)
stored price is returned.  Only called with a mint present in `_prices`
(the `none` arm mirrors the Python `KeyError` being unreachable). -/
def simulate_fluctuation (st : MarketState) (mint : String) (elapsed : Bool) (u : ℚ) :
    ℚ × MarketState :=
  match st.prices mint with
  | none => (0, st)
  | some current_price =>
    if elapsed then
      let newp := current_price + current_price * u
      (newp, { st with prices := fun m => if m = mint then some newp else st.prices m })
    else (current_price, st)

/-- `MockMarketData.get_price`: USDC is returned directly from `_prices`
with no fluctuation; other known mints go through
`_simulate_fluctuation`; unknown mints yield 0.0. -/
def get_price (st : MarketState) (mint : String) (elapsed : Bool) (u : ℚ) :
    ℚ × MarketState :=
  if mint = USDC_MINT then ((st.prices mint).getD 0, st)
  else if (st.prices mint).isSome then
    simulate_fluctuation st mint elapsed u
  else (0, st)

/-- `MockMarketData.get_liquidity_pool_apy`: base APY from `_apys` with
default 3%, plus a uniform draw `u` in `[-1%, +2%]`, clamped below at 1%.
The state is never mutated. -/
def get_liquidity_pool_apy (st : MarketState) (exchange_name pair : String) (u : ℚ) :
    ℚ × MarketState :=
  (max (1/100) ((st.apys (exchange_name ++ "_" ++ pair)).getD (3/100) + u), st)

/-- One externally observable operation on the market-data object,
carrying its timer state and random draw. -/
inductive MarketOp where
  | getPrice (mint : String) (elapsed : Bool) (u : ℚ)
  | getApy (exchange_name pair : String) (u : ℚ)

def applyOp (st : MarketState) (op : MarketOp) : MarketState :=
  match op with
  | .getPrice mint elapsed u => (get_price st mint elapsed u).2
  | .getApy ex pair u => (get_liquidity_pool_apy st ex pair u).2

def applyOps (st : MarketState) (ops : List MarketOp) : MarketState :=
  ops.foldl applyOp st

/-! ## Quotes (MockJupiterAPI.get_quote, src/main.py lines 51-85)

The quote dict.  The Python code stores `inAmount`, `outAmount` and
`otherAmountThreshold` as decimal strings of integers and later parses
them back with `float(...)`; the round trip is exact for the magnitudes
involved, so the fields are modelled as the integers themselves.
`routePlan` (always `[]`) is omitted. -/

structure Quote where
  inputMint : String
  inAmount : ℤ
  outputMint : String
  outAmount : ℤ
  otherAmountThreshold : ℤ
  swapMode : String
  slippageBps : ℤ
  priceImpactPct : String
  contextSlot : ℤ
  timeTaken : ℚ
  deriving Repr, DecidableEq

/-- The lower end of the band that `get_quote` draws its random factor
from: `random.uniform(0.9990, 0.9995)` when `self.name == "Jupiter"`,
`random.uniform(0.9996, 1.0000)` otherwise (the Raydium subclass). -/
def factor_lo (name : String) : ℚ := if name = "Jupiter" then 9990/10000 else 9996/10000

/-- The upper end of the same band. -/
def factor_hi (name : String) : ℚ := if name = "Jupiter" then 9995/10000 else 1

/-- `input_amount_usd = (amount / (10 ** SOL_DECIMALS)) * input_price`. -/
def input_amount_usd (amount : ℤ) (input_price : ℚ) : ℚ :=
  ((amount : ℚ) / 10 ^ SOL_DECIMALS) * input_price

/-- `output_amount_usd_raw = input_amount_usd * factor` where `factor`
is the venue-dependent uniform draw. -/
def output_amount_usd_raw (amount : ℤ) (input_price factor : ℚ) : ℚ :=
  input_amount_usd amount input_price * factor

/-- `out_amount_base_units = int((output_amount_usd_raw / output_price) * (10 ** USDC_DECIMALS))`. -/
def out_amount_base_units (amount : ℤ) (input_price output_price factor : ℚ) : ℤ :=
  pyInt (output_amount_usd_raw amount input_price factor / output_price * 10 ^ USDC_DECIMALS)

/-- `min_out_amount_base_units = int(out_amount_base_units * (1 - (slippage_bps / 10000)))`. -/
def min_out_amount_base_units (out slippage_bps : ℤ) : ℤ :=
  pyInt ((out : ℚ) * (1 - (slippage_bps : ℚ) / 10000))

/-- `MockJupiterAPI.get_quote` (inherited unchanged by
`MockRaydiumAPI`).  `input_price` and `output_price` are the values
obtained from `market_data.get_price`, and `factor` is the uniform draw
from the venue's band.  Returns `none` when either price is zero. -/
def get_quote (input_price output_price factor : ℚ) (input_mint output_mint : String)
    (amount slippage_bps : ℤ) : Option Quote :=
  if input_price = 0 ∨ output_price = 0 then none
  else
    let out := out_amount_base_units amount input_price output_price factor
    some { inputMint := input_mint
           inAmount := amount
           outputMint := output_mint
           outAmount := out
           otherAmountThreshold := min_out_amount_base_units out slippage_bps
           swapMode := "ExactIn"
           slippageBps := slippage_bps
           priceImpactPct := "0.0001"
           contextSlot := 0
           timeTaken := 1/100 }

/-- The swap-transaction response dict
(`MockJupiterAPI.get_swap_transaction`).  `swapTransaction := none`
models an absent key; `some ""` is present but falsy. -/
structure SwapResponse where
  swapTransaction : Option String
  lastValidBlockHeight : ℤ
  prioritizationFeeLamports : ℤ
  deriving Repr, DecidableEq

/-- The actual mock response for the exchange with the given name. -/
def get_swap_transaction (name : String) : SwapResponse :=
  { swapTransaction := some ("mocked_base64_unsigned_transaction_from_" ++ name)
    lastValidBlockHeight := 100000000
    prioritizationFeeLamports := 1000 }

/-! ## Opportunities (src/main.py lines 135-212) -/

/-- The tagged opportunity record.  `arbitrage` carries the fields of
the dict built at lines 180-190 / 194-204; `yield_farming` carries the
fields of the dict built at lines 146-151 / 154-159. -/
inductive Opportunity where
  | arbitrage (inputMint outputMint : String) (amountIn : ℤ)
      (buyExchange sellExchange : String) (profitUsdc : ℚ)
      (buyQuote sellQuote : Quote)
  | yield_farming (pair exchange : String) (apy : ℚ)
  deriving Repr, DecidableEq

/-- The `"type"` tag of an opportunity dict. -/
def Opportunity.tag : Opportunity → String
  | .arbitrage _ _ _ _ _ _ _ _ => "arbitrage"
  | .yield_farming _ _ _ => "yield_farming"

/-- The pair of quotes an opportunity record carries
(`buyQuote`, `sellQuote`), if any. -/
def Opportunity.quotesCarried : Opportunity → Option (Quote × Quote)
  | .arbitrage _ _ _ _ _ _ bq sq => some (bq, sq)
  | .yield_farming _ _ _ => none

/-- The computed profit figure an opportunity record carries
(`profitUsdc`), if any. -/
def Opportunity.profitCarried : Opportunity → Option ℚ
  | .arbitrage _ _ _ _ _ p _ _ => some p
  | .yield_farming _ _ _ => none

/-- `apy_threshold = 0.005` (line 142). -/
def apy_threshold : ℚ := 5/1000

/-- `check_yield_farming_opportunity` (lines 135-160).  The two APYs are
the values returned by the two `get_liquidity_pool_apy` calls. -/
def check_yield_farming_opportunity (jupiter_apy raydium_apy : ℚ) : Option Opportunity :=
  if jupiter_apy > raydium_apy + apy_threshold then
    some (.yield_farming "SOL-USDC" "Jupiter" jupiter_apy)
  else if raydium_apy > jupiter_apy + apy_threshold then
    some (.yield_farming "SOL-USDC" "Raydium" raydium_apy)
  else none

/-- `amount_to_swap_lamports = int(0.1 * (10 ** SOL_DECIMALS))` (line 167);
the float product rounds to exactly 1e8. -/
def amount_to_swap_lamports : ℤ := 100000000

/-- `min_profit_threshold_usd = 0.001` (line 168). -/
def min_profit_threshold_usd : ℚ := 1/1000

/-- `float(quote['outAmount']) / (10**USDC_DECIMALS)` (lines 174-175). -/
def usdc_scaled (out : ℤ) : ℚ := (out : ℚ) / 10 ^ USDC_DECIMALS

/-- `identify_opportunity` (lines 162-212).  The two quotes are the
values returned by the two `get_quote` calls; the two APYs parameterise
the `check_yield_farming_opportunity` fallthrough. -/
def identify_opportunity (jupiter_quote raydium_quote : Option Quote)
    (jupiter_apy raydium_apy : ℚ) : Option Opportunity :=
  match jupiter_quote, raydium_quote with
  | some jq, some rq =>
    let jupiter_out_usdc := usdc_scaled jq.outAmount
    let raydium_out_usdc := usdc_scaled rq.outAmount
    if raydium_out_usdc > jupiter_out_usdc + min_profit_threshold_usd then
      some (.arbitrage SOL_MINT USDC_MINT amount_to_swap_lamports
        "Jupiter" "Raydium" (raydium_out_usdc - jupiter_out_usdc) jq rq)
    else if jupiter_out_usdc > raydium_out_usdc + min_profit_threshold_usd then
      some (.arbitrage SOL_MINT USDC_MINT amount_to_swap_lamports
        "Raydium" "Jupiter" (jupiter_out_usdc - raydium_out_usdc) rq jq)
    else check_yield_farming_opportunity jupiter_apy raydium_apy
  | _, _ => check_yield_farming_opportunity jupiter_apy raydium_apy

/-! ## MockAgentWallet (src/main.py lines 100-123) -/

/-- The parsed JSON config file: the values of the `"apiToken"` and
`"solanaAddress"` keys, `none` when a key is absent (`dict.get`). -/
structure ConfigFile where
  apiToken : Option String
  solanaAddress : Option String
  deriving Repr, DecidableEq

/-- The wallet fields set by `MockAgentWallet.__init__` / `_load_config`. -/
structure AgentWalletState where
  api_token : Option String
  solana_address : Option String
  deriving Repr, DecidableEq

/-- `MockAgentWallet._load_config` after `__init__` set both fields to
`None`: when the config file does not exist (`file = none`) both fields
stay `None`; when it exists they become the file's entries. -/
def load_config (file : Option ConfigFile) : AgentWalletState :=
  match file with
  | none => { api_token := none, solana_address := none }
  | some c => { api_token := c.apiToken, solana_address := c.solanaAddress }

/-! ## execute_strategy (src/main.py lines 214-251)

The function only prints; its observable behaviour is modelled as an
outcome (which console path was taken) plus the list of execution steps
performed, in order.  `swapResp` parameterises over the response of the
selected exchange's `get_swap_transaction` (the error branch at lines
237-239 guards against a response without a truthy `"swapTransaction"`
value).  The source's trailing `else` for an unknown `"type"` tag is
unreachable for the `Opportunity` type, whose only tags are
`"arbitrage"` and `"yield_farming"`. -/

inductive ExecEffect where
  | swapTransactionRequested (exchange : String)
  | transactionGenerated (exchange : String)
  | capitalDeployed (exchange pair : String)
  deriving Repr, DecidableEq

inductive ExecOutcome where
  | errorNoWallet
  | errorNoTransaction (exchange : String)
  | errorNoExchange
  | arbitrageSimulated (exchange : String)
  | yieldSimulated
  deriving Repr, DecidableEq

def execute_strategy (opportunity : Opportunity) (solana_address : Option String)
    (swapResp : String → SwapResponse) : ExecOutcome × List ExecEffect :=
  if pyTruthyStr solana_address = false then (.errorNoWallet, [])
  else
    match opportunity with
    | .arbitrage _ _ _ _ sellExchange _ _ _ =>
      if sellExchange = "Jupiter" ∨ sellExchange = "Raydium" then
        if pyTruthyStr (swapResp sellExchange).swapTransaction = false then
          (.errorNoTransaction sellExchange, [.swapTransactionRequested sellExchange])
        else
          (.arbitrageSimulated sellExchange,
           [.swapTransactionRequested sellExchange, .transactionGenerated sellExchange])
      else (.errorNoExchange, [])
    | .yield_farming pair exchange _ =>
      (.yieldSimulated, [.capitalDeployed exchange pair])

/-! ## Helper lemmas -/

theorem pyInt_intCast (n : ℤ) : pyInt (n : ℚ) = n := by
  unfold pyInt
  split_ifs with h
  · rw [← Int.cast_neg, Int.floor_intCast]; omega
  · rw [Int.floor_intCast]

theorem pyInt_mono {a b : ℚ} (h : a ≤ b) : pyInt a ≤ pyInt b := by
  unfold pyInt
  split_ifs with ha hb hb
  · have hba : -b ≤ -a := by linarith
    have := Int.floor_mono hba
    omega
  · have h1 : (0 : ℤ) ≤ ⌊-a⌋ := Int.le_floor.mpr (by push_cast; linarith)
    have h2 : (0 : ℤ) ≤ ⌊b⌋ := Int.le_floor.mpr (by push_cast; linarith)
    omega
  · linarith
  · exact Int.floor_mono h

theorem pyInt_nonneg {q : ℚ} (h : 0 ≤ q) : 0 ≤ pyInt q := by
  unfold pyInt
  rw [if_neg (not_lt.mpr h)]
  exact Int.le_floor.mpr (by push_cast; linarith)

theorem min_out_le_out (out sb : ℤ) (h0 : 0 ≤ out) (hsb0 : 0 ≤ sb) (hsb1 : sb ≤ 10000) :
    min_out_amount_base_units out sb ≤ out := by
  have hsb0q : (0 : ℚ) ≤ (sb : ℚ) := by exact_mod_cast hsb0
  have hsb1q : (sb : ℚ) ≤ 10000 := by exact_mod_cast hsb1
  have h0q : (0 : ℚ) ≤ (out : ℚ) := by exact_mod_cast h0
  have hf1 : 1 - (sb : ℚ) / 10000 ≤ 1 := by linarith
  have hle : (out : ℚ) * (1 - (sb : ℚ) / 10000) ≤ (out : ℚ) :=
    mul_le_of_le_one_right h0q hf1
  calc min_out_amount_base_units out sb
      ≤ pyInt ((out : ℚ)) := pyInt_mono hle
    _ = out := pyInt_intCast out

theorem check_yield_shape (j r : ℚ) (o : Opportunity)
    (h : check_yield_farming_opportunity j r = some o) :
    o = .yield_farming "SOL-USDC" "Jupiter" j ∨ o = .yield_farming "SOL-USDC" "Raydium" r := by
  unfold check_yield_farming_opportunity at h
  split_ifs at h
  · exact Or.inl (Option.some.inj h).symm
  · exact Or.inr (Option.some.inj h).symm

theorem check_yield_tag (j r : ℚ) (o : Opportunity)
    (h : check_yield_farming_opportunity j r = some o) : o.tag = "yield_farming" := by
  rcases check_yield_shape j r o h with h' | h' <;> rw [h'] <;> rfl

/-! ## Claim theorems -/

/-- A concrete quote value used to instantiate the theorems below. -/
def sampleQuote (out : ℤ) : Quote :=
  { inputMint := SOL_MINT
    inAmount := amount_to_swap_lamports
    outputMint := USDC_MINT
    outAmount := out
    otherAmountThreshold := out
    swapMode := "ExactIn"
    slippageBps := 100
    priceImpactPct := "0.0001"
    contextSlot := 0
    timeTaken := 1/100 }

/-- C1: for every pair of non-null quotes, the arbitrage comparison in
`identify_opportunity` picks the branch with the larger output amount:
it returns an arbitrage opportunity whose `sellExchange` is the exchange
whose quote has the larger `outAmount` (and `buyExchange` the smaller),
with `profitUsdc` equal to the difference of the two USDC-scaled
outputs, and it returns an arbitrage opportunity exactly when that
difference exceeds the fixed profit threshold of 0.001 USD. -/
theorem arbitrage_picks_larger_branch (jq rq : Quote) (japy rapy : ℚ) :
    (usdc_scaled rq.outAmount > usdc_scaled jq.outAmount + min_profit_threshold_usd →
      identify_opportunity (some jq) (some rq) japy rapy =
        some (.arbitrage SOL_MINT USDC_MINT amount_to_swap_lamports "Jupiter" "Raydium"
          (usdc_scaled rq.outAmount - usdc_scaled jq.outAmount) jq rq)) ∧
    (usdc_scaled jq.outAmount > usdc_scaled rq.outAmount + min_profit_threshold_usd →
      identify_opportunity (some jq) (some rq) japy rapy =
        some (.arbitrage SOL_MINT USDC_MINT amount_to_swap_lamports "Raydium" "Jupiter"
          (usdc_scaled jq.outAmount - usdc_scaled rq.outAmount) rq jq)) ∧
    ((∃ o, identify_opportunity (some jq) (some rq) japy rapy = some o ∧
        o.tag = "arbitrage") ↔
      |usdc_scaled rq.outAmount - usdc_scaled jq.outAmount| > min_profit_threshold_usd) := by
  have hθ : (0 : ℚ) < min_profit_threshold_usd := by norm_num [min_profit_threshold_usd]
  refine ⟨?_, ?_, ?_, ?_⟩
  · intro h
    simp only [identify_opportunity]
    rw [if_pos h]
  · intro h
    have hn : ¬ usdc_scaled rq.outAmount >
        usdc_scaled jq.outAmount + min_profit_threshold_usd := by
      intro hc; linarith
    simp only [identify_opportunity]
    rw [if_neg hn, if_pos h]
  · rintro ⟨o, ho, htag⟩
    by_cases h1 : usdc_scaled rq.outAmount >
        usdc_scaled jq.outAmount + min_profit_threshold_usd
    · calc min_profit_threshold_usd
          < usdc_scaled rq.outAmount - usdc_scaled jq.outAmount := by linarith
        _ ≤ |usdc_scaled rq.outAmount - usdc_scaled jq.outAmount| := le_abs_self _
    by_cases h2 : usdc_scaled jq.outAmount >
        usdc_scaled rq.outAmount + min_profit_threshold_usd
    · calc min_profit_threshold_usd
          < -(usdc_scaled rq.outAmount - usdc_scaled jq.outAmount) := by linarith
        _ ≤ |usdc_scaled rq.outAmount - usdc_scaled jq.outAmount| := neg_le_abs _
    exfalso
    simp only [identify_opportunity] at ho
    rw [if_neg h1, if_neg h2] at ho
    have hyt := check_yield_tag japy rapy o ho
    rw [htag] at hyt
    exact absurd hyt (by decide)
  · intro habs
    rcases lt_or_le (usdc_scaled jq.outAmount) (usdc_scaled rq.outAmount) with hlt | hle
    · have habs2 : |usdc_scaled rq.outAmount - usdc_scaled jq.outAmount| =
          usdc_scaled rq.outAmount - usdc_scaled jq.outAmount := abs_of_pos (by linarith)
      rw [habs2] at habs
      have h1 : usdc_scaled rq.outAmount >
          usdc_scaled jq.outAmount + min_profit_threshold_usd := by linarith
      refine ⟨.arbitrage SOL_MINT USDC_MINT amount_to_swap_lamports "Jupiter" "Raydium"
        (usdc_scaled rq.outAmount - usdc_scaled jq.outAmount) jq rq, ?_, rfl⟩
      simp only [identify_opportunity]
      rw [if_pos h1]
    · have habs2 : |usdc_scaled rq.outAmount - usdc_scaled jq.outAmount| =
          -(usdc_scaled rq.outAmount - usdc_scaled jq.outAmount) :=
        abs_of_nonpos (by linarith)
      rw [habs2] at habs
      have h2 : usdc_scaled jq.outAmount >
          usdc_scaled rq.outAmount + min_profit_threshold_usd := by linarith
      have hn : ¬ usdc_scaled rq.outAmount >
          usdc_scaled jq.outAmount + min_profit_threshold_usd := by
        intro hc; linarith
      refine ⟨.arbitrage SOL_MINT USDC_MINT amount_to_swap_lamports "Raydium" "Jupiter"
        (usdc_scaled jq.outAmount - usdc_scaled rq.outAmount) rq jq, ?_, rfl⟩
      simp only [identify_opportunity]
      rw [if_neg hn, if_pos h2]

/-- A concrete instance of C1: with Jupiter quoting 16.99 USDC and
Raydium 17.00 USDC out, an arbitrage selling on Raydium is returned. -/
theorem arbitrage_picks_larger_branch_witness :
    identify_opportunity (some (sampleQuote 16990000)) (some (sampleQuote 17000000)) 0 0 =
      some (.arbitrage SOL_MINT USDC_MINT amount_to_swap_lamports "Jupiter" "Raydium"
        (usdc_scaled 17000000 - usdc_scaled 16990000)
        (sampleQuote 16990000) (sampleQuote 17000000)) :=
  (arbitrage_picks_larger_branch (sampleQuote 16990000) (sampleQuote 17000000) 0 0).1
    (by norm_num [sampleQuote, usdc_scaled, USDC_DECIMALS, min_profit_threshold_usd])

/-- C2: `check_yield_farming_opportunity` returns the record naming the
exchange with the strictly higher APY exactly when that APY exceeds the
other by more than the 0.005 threshold, and returns `none` in every
other case (including a difference equal to the threshold). -/
theorem yield_picks_higher_apy (jupiter_apy raydium_apy : ℚ) :
    (jupiter_apy > raydium_apy + (5 : ℚ)/1000 →
      check_yield_farming_opportunity jupiter_apy raydium_apy =
        some (.yield_farming "SOL-USDC" "Jupiter" jupiter_apy)) ∧
    (raydium_apy > jupiter_apy + (5 : ℚ)/1000 →
      check_yield_farming_opportunity jupiter_apy raydium_apy =
        some (.yield_farming "SOL-USDC" "Raydium" raydium_apy)) ∧
    (¬ jupiter_apy > raydium_apy + (5 : ℚ)/1000 →
     ¬ raydium_apy > jupiter_apy + (5 : ℚ)/1000 →
      check_yield_farming_opportunity jupiter_apy raydium_apy = none) := by
  refine ⟨?_, ?_, ?_⟩
  · intro h
    unfold check_yield_farming_opportunity apy_threshold
    rw [if_pos h]
  · intro h
    have hn : ¬ jupiter_apy > raydium_apy + (5 : ℚ)/1000 := by
      intro hc; linarith
    unfold check_yield_farming_opportunity apy_threshold
    rw [if_neg hn, if_pos h]
  · intro h1 h2
    unfold check_yield_farming_opportunity apy_threshold
    rw [if_neg h1, if_neg h2]

/-- A concrete instance of C2: 6% vs 4% APY selects Jupiter. -/
theorem yield_picks_higher_apy_witness :
    check_yield_farming_opportunity (6/100) (4/100) =
      some (.yield_farming "SOL-USDC" "Jupiter" (6/100)) :=
  (yield_picks_higher_apy (6/100) (4/100)).1 (by norm_num)

/-- C3: for every opportunity and every swap-transaction environment, a
missing wallet Solana address (`None` or the empty string) makes
`execute_strategy` log the error and abandon the operation: the outcome
is the wallet error and the effect list is empty, so no swap-transaction
request is made and no execution message is produced. -/
theorem missing_wallet_blocks_execution (opportunity : Opportunity)
    (solana_address : Option String) (swapResp : String → SwapResponse)
    (h : solana_address = none ∨ solana_address = some "") :
    execute_strategy opportunity solana_address swapResp = (.errorNoWallet, []) := by
  rcases h with h | h <;> subst h <;> rfl

/-- A concrete instance of C3: a yield-farming opportunity with an
absent wallet address is abandoned with no effects. -/
theorem missing_wallet_blocks_execution_witness :
    execute_strategy (.yield_farming "SOL-USDC" "Jupiter" (5/100)) none get_swap_transaction =
      (.errorNoWallet, []) :=
  missing_wallet_blocks_execution (.yield_farming "SOL-USDC" "Jupiter" (5/100)) none
    get_swap_transaction (Or.inl rfl)

/-- C4: for every arbitrage opportunity with a present (truthy) wallet
address whose sell exchange is one of the two known exchanges, if the
swap-transaction response of that exchange has no truthy
`swapTransaction` value then `execute_strategy` logs the error and
abandons the operation: the only effect is the swap-transaction request
itself; no transaction is generated, simulated or sent. -/
theorem missing_payload_blocks_execution (im om : String) (amtIn : ℤ)
    (buyEx sellEx : String) (profit : ℚ) (bq sq : Quote)
    (solana_address : Option String) (swapResp : String → SwapResponse)
    (haddr : pyTruthyStr solana_address = true)
    (hsell : sellEx = "Jupiter" ∨ sellEx = "Raydium")
    (hresp : pyTruthyStr (swapResp sellEx).swapTransaction = false) :
    execute_strategy (.arbitrage im om amtIn buyEx sellEx profit bq sq)
        solana_address swapResp =
      (.errorNoTransaction sellEx, [.swapTransactionRequested sellEx]) := by
  have hmatch : execute_strategy (.arbitrage im om amtIn buyEx sellEx profit bq sq)
      solana_address swapResp =
      if sellEx = "Jupiter" ∨ sellEx = "Raydium" then
        if pyTruthyStr (swapResp sellEx).swapTransaction = false then
          (.errorNoTransaction sellEx, [.swapTransactionRequested sellEx])
        else
          (.arbitrageSimulated sellEx,
           [.swapTransactionRequested sellEx, .transactionGenerated sellEx])
      else (.errorNoExchange, []) := by
    unfold execute_strategy
    rw [if_neg (by simp [haddr])]
  rw [hmatch, if_pos hsell, if_pos hresp]

/-- A concrete instance of C4: a response with the `swapTransaction` key
absent aborts execution after the request. -/
theorem missing_payload_blocks_execution_witness :
    execute_strategy
        (.arbitrage SOL_MINT USDC_MINT amount_to_swap_lamports "Jupiter" "Raydium"
          (1/100) (sampleQuote 16990000) (sampleQuote 17000000))
        (some "FakeWalletAddress1111111111111111111111111")
        (fun _ => { swapTransaction := none
                    lastValidBlockHeight := 100000000
                    prioritizationFeeLamports := 1000 }) =
      (.errorNoTransaction "Raydium", [.swapTransactionRequested "Raydium"]) :=
  missing_payload_blocks_execution SOL_MINT USDC_MINT amount_to_swap_lamports
    "Jupiter" "Raydium" (1/100) (sampleQuote 16990000) (sampleQuote 17000000)
    (some "FakeWalletAddress1111111111111111111111111")
    (fun _ => { swapTransaction := none
                lastValidBlockHeight := 100000000
                prioritizationFeeLamports := 1000 })
    rfl (Or.inr rfl) rfl

/-- C5: if either of the two quotes is null, `identify_opportunity`
returns no arbitrage opportunity and falls through to the yield-farming
check, whose result (possibly `none`) becomes the function's result; in
particular any opportunity returned in that case is tagged
`yield_farming`. -/
theorem null_quote_falls_through (jupiter_quote raydium_quote : Option Quote)
    (jupiter_apy raydium_apy : ℚ)
    (h : jupiter_quote = none ∨ raydium_quote = none) :
    identify_opportunity jupiter_quote raydium_quote jupiter_apy raydium_apy =
      check_yield_farming_opportunity jupiter_apy raydium_apy ∧
    ∀ o, identify_opportunity jupiter_quote raydium_quote jupiter_apy raydium_apy = some o →
      o.tag = "yield_farming" := by
  have heq : identify_opportunity jupiter_quote raydium_quote jupiter_apy raydium_apy =
      check_yield_farming_opportunity jupiter_apy raydium_apy := by
    rcases h with h | h
    · subst h; rfl
    · subst h; cases jupiter_quote <;> rfl
  refine ⟨heq, ?_⟩
  intro o ho
  rw [heq] at ho
  exact check_yield_tag jupiter_apy raydium_apy o ho

/-- A concrete instance of C5: with the Jupiter quote null, the result
is exactly the yield-farming check's result. -/
theorem null_quote_falls_through_witness :
    identify_opportunity none (some (sampleQuote 17000000)) (5/100) (4/100) =
      check_yield_farming_opportunity (5/100) (4/100) :=
  (null_quote_falls_through none (some (sampleQuote 17000000)) (5/100) (4/100)
    (Or.inl rfl)).1

/-- C6: constructing the wallet reads the optional config file with
silent fallback: when the file does not exist both `api_token` and
`solana_address` are `None` (and the construction is a total function,
so it succeeds); when it exists they are the file's `"apiToken"` and
`"solanaAddress"` entries, `None` for an absent entry. -/
theorem load_config_optional_fallback (file : Option ConfigFile) :
    (file = none → load_config file = { api_token := none, solana_address := none }) ∧
    (∀ c, file = some c →
      load_config file = { api_token := c.apiToken, solana_address := c.solanaAddress }) := by
  constructor
  · rintro rfl; rfl
  · rintro c rfl; rfl

/-- A concrete instance of C6: a missing config file yields a wallet
with both fields absent. -/
theorem load_config_optional_fallback_witness :
    load_config none = { api_token := none, solana_address := none } :=
  (load_config_optional_fallback none).1 rfl

/-- Any result of the yield-farming check satisfies the amended shape
description for opportunities, relative to any pair of quote options. -/
theorem yield_case_helper (japy rapy : ℚ) (o : Opportunity) (jqo rqo : Option Quote)
    (ho : check_yield_farming_opportunity japy rapy = some o) :
    (o.tag = "arbitrage" ∨ o.tag = "yield_farming") ∧
    (o.tag = "arbitrage" →
      ∃ a b, jqo = some a ∧ rqo = some b ∧
        (o.quotesCarried = some (a, b) ∨ o.quotesCarried = some (b, a)) ∧
        o.profitCarried = some |usdc_scaled b.outAmount - usdc_scaled a.outAmount|) ∧
    (o.tag = "yield_farming" →
      o.quotesCarried = none ∧ o.profitCarried = none ∧
      ∃ ex apy, o = .yield_farming "SOL-USDC" ex apy) := by
  rcases check_yield_shape japy rapy o ho with rfl | rfl
  · exact ⟨Or.inr rfl,
      fun hab => absurd (show ("yield_farming" : String) = "arbitrage" from hab) (by decide),
      fun _ => ⟨rfl, rfl, "Jupiter", japy, rfl⟩⟩
  · exact ⟨Or.inr rfl,
      fun hab => absurd (show ("yield_farming" : String) = "arbitrage" from hab) (by decide),
      fun _ => ⟨rfl, rfl, "Raydium", rapy, rfl⟩⟩

/-- C7 fails as stated: `identify_opportunity` can return (here with
both quotes null and APYs 6% vs 4%) a yield-farming opportunity that
carries neither the two quotes being compared nor a computed profit
figure — the `yield_farming` record holds only the pair, the winning
exchange and its APY. -/
theorem opportunity_record_counterexample :
    identify_opportunity none none (6/100) (4/100) =
      some (.yield_farming "SOL-USDC" "Jupiter" (6/100)) ∧
    Opportunity.quotesCarried (.yield_farming "SOL-USDC" "Jupiter" (6/100)) = none ∧
    Opportunity.profitCarried (.yield_farming "SOL-USDC" "Jupiter" (6/100)) = none := by
  refine ⟨?_, rfl, rfl⟩
  show check_yield_farming_opportunity (6/100) (4/100) = _
  unfold check_yield_farming_opportunity apy_threshold
  rw [if_pos (by norm_num)]

/-- C7 (amended): every opportunity returned by `identify_opportunity`
is a tagged record of type `"arbitrage"` or `"yield_farming"`; the
arbitrage records carry the two quotes being compared and a computed
profit figure (the absolute USDC-scaled output difference), while the
yield-farming records carry only the pair, the selected exchange and its
APY, with no quotes and no profit field. -/
theorem opportunity_record_amended (jupiter_quote raydium_quote : Option Quote)
    (jupiter_apy raydium_apy : ℚ) (o : Opportunity)
    (h : identify_opportunity jupiter_quote raydium_quote jupiter_apy raydium_apy = some o) :
    (o.tag = "arbitrage" ∨ o.tag = "yield_farming") ∧
    (o.tag = "arbitrage" →
      ∃ a b, jupiter_quote = some a ∧ raydium_quote = some b ∧
        (o.quotesCarried = some (a, b) ∨ o.quotesCarried = some (b, a)) ∧
        o.profitCarried = some |usdc_scaled b.outAmount - usdc_scaled a.outAmount|) ∧
    (o.tag = "yield_farming" →
      o.quotesCarried = none ∧ o.profitCarried = none ∧
      ∃ ex apy, o = .yield_farming "SOL-USDC" ex apy) := by
  have hθ : (0 : ℚ) < min_profit_threshold_usd := by norm_num [min_profit_threshold_usd]
  rcases jupiter_quote with _ | jq
  · exact yield_case_helper jupiter_apy raydium_apy o none raydium_quote h
  rcases raydium_quote with _ | rq
  · exact yield_case_helper jupiter_apy raydium_apy o (some jq) none h
  by_cases h1 : usdc_scaled rq.outAmount > usdc_scaled jq.outAmount + min_profit_threshold_usd
  · have ho : o = .arbitrage SOL_MINT USDC_MINT amount_to_swap_lamports "Jupiter" "Raydium"
        (usdc_scaled rq.outAmount - usdc_scaled jq.outAmount) jq rq := by
      simp only [identify_opportunity] at h
      rw [if_pos h1] at h
      exact (Option.some.inj h).symm
    subst ho
    refine ⟨Or.inl rfl, fun _ => ⟨jq, rq, rfl, rfl, Or.inl rfl, ?_⟩,
      fun hy => absurd (show ("arbitrage" : String) = "yield_farming" from hy) (by decide)⟩
    have hpos : (0 : ℚ) < usdc_scaled rq.outAmount - usdc_scaled jq.outAmount := by linarith
    simp only [Opportunity.profitCarried]
    rw [abs_of_pos hpos]
  by_cases h2 : usdc_scaled jq.outAmount > usdc_scaled rq.outAmount + min_profit_threshold_usd
  · have hn : ¬ usdc_scaled rq.outAmount >
        usdc_scaled jq.outAmount + min_profit_threshold_usd := h1
    have ho : o = .arbitrage SOL_MINT USDC_MINT amount_to_swap_lamports "Raydium" "Jupiter"
        (usdc_scaled jq.outAmount - usdc_scaled rq.outAmount) rq jq := by
      simp only [identify_opportunity] at h
      rw [if_neg hn, if_pos h2] at h
      exact (Option.some.inj h).symm
    subst ho
    refine ⟨Or.inl rfl, fun _ => ⟨jq, rq, rfl, rfl, Or.inr rfl, ?_⟩,
      fun hy => absurd (show ("arbitrage" : String) = "yield_farming" from hy) (by decide)⟩
    have hneg : usdc_scaled rq.outAmount - usdc_scaled jq.outAmount < 0 := by linarith
    simp only [Opportunity.profitCarried]
    rw [abs_of_neg hneg]
    have he : usdc_scaled jq.outAmount - usdc_scaled rq.outAmount =
        -(usdc_scaled rq.outAmount - usdc_scaled jq.outAmount) := by ring
    rw [he]
  · have ho : check_yield_farming_opportunity jupiter_apy raydium_apy = some o := by
      simp only [identify_opportunity] at h
      rw [if_neg h1, if_neg h2] at h
      exact h
    exact yield_case_helper jupiter_apy raydium_apy o (some jq) (some rq) ho

/-- A concrete instance of the amended C7: the yield record returned for
6% vs 4% APY is properly tagged and carries no quotes. -/
theorem opportunity_record_amended_witness :
    (Opportunity.tag (.yield_farming "SOL-USDC" "Jupiter" (6/100)) = "arbitrage" ∨
     Opportunity.tag (.yield_farming "SOL-USDC" "Jupiter" (6/100)) = "yield_farming") ∧
    Opportunity.quotesCarried (.yield_farming "SOL-USDC" "Jupiter" (6/100)) = none ∧
    Opportunity.profitCarried (.yield_farming "SOL-USDC" "Jupiter" (6/100)) = none :=
  have h : identify_opportunity none none (6/100) (4/100) =
      some (.yield_farming "SOL-USDC" "Jupiter" (6/100)) := by
    show check_yield_farming_opportunity (6/100) (4/100) = _
    unfold check_yield_farming_opportunity apy_threshold
    rw [if_pos (by norm_num)]
  ⟨(opportunity_record_amended none none (6/100) (4/100) _ h).1,
   ((opportunity_record_amended none none (6/100) (4/100) _ h).2.2 rfl).1,
   ((opportunity_record_amended none none (6/100) (4/100) _ h).2.2 rfl).2.1⟩

/-- C8: every non-null quote returned by `get_quote` is the record with
the requested input token, output token, input amount and slippage, the
computed output amount, and a minimum output (`otherAmountThreshold`)
equal to the output amount scaled by `1 - slippageBps/10000` and
truncated to an integer; for slippage between 0 and 10000 bps (and the
nonnegative prices, amounts and factors the program supplies) the
minimum output is at most the output amount. -/
theorem get_quote_record_spec (input_price output_price factor : ℚ)
    (input_mint output_mint : String) (amount slippage_bps : ℤ)
    (hip : input_price ≠ 0) (hop : output_price ≠ 0)
    (hamt : 0 ≤ amount) (hip0 : 0 ≤ input_price) (hf : 0 ≤ factor)
    (hop0 : 0 ≤ output_price)
    (hsb0 : 0 ≤ slippage_bps) (hsb1 : slippage_bps ≤ 10000) :
    get_quote input_price output_price factor input_mint output_mint amount slippage_bps =
      some { inputMint := input_mint
             inAmount := amount
             outputMint := output_mint
             outAmount := out_amount_base_units amount input_price output_price factor
             otherAmountThreshold :=
               pyInt ((out_amount_base_units amount input_price output_price factor : ℚ) *
                 (1 - (slippage_bps : ℚ) / 10000))
             swapMode := "ExactIn"
             slippageBps := slippage_bps
             priceImpactPct := "0.0001"
             contextSlot := 0
             timeTaken := 1/100 } ∧
    pyInt ((out_amount_base_units amount input_price output_price factor : ℚ) *
        (1 - (slippage_bps : ℚ) / 10000)) ≤
      out_amount_base_units amount input_price output_price factor := by
  constructor
  · unfold get_quote
    rw [if_neg (by tauto)]
    rfl
  · have hop' : 0 < output_price := lt_of_le_of_ne hop0 (Ne.symm hop)
    have hcast : (0 : ℚ) ≤ (amount : ℚ) := by exact_mod_cast hamt
    have hnum : 0 ≤ output_amount_usd_raw amount input_price factor := by
      unfold output_amount_usd_raw input_amount_usd
      exact mul_nonneg (mul_nonneg (div_nonneg hcast (by positivity)) hip0) hf
    have hout : 0 ≤ out_amount_base_units amount input_price output_price factor := by
      apply pyInt_nonneg
      exact mul_nonneg (div_nonneg hnum (le_of_lt hop')) (by positivity)
    exact min_out_le_out _ _ hout hsb0 hsb1

/-- A concrete instance of C8: with SOL at 170 USD, USDC at 1 USD, the
top of the Jupiter band and 100 bps slippage, the minimum output does
not exceed the output amount. -/
theorem get_quote_record_spec_witness :
    pyInt ((out_amount_base_units amount_to_swap_lamports 170 1 (9995/10000) : ℚ) *
        (1 - ((100 : ℤ) : ℚ) / 10000)) ≤
      out_amount_base_units amount_to_swap_lamports 170 1 (9995/10000) :=
  (get_quote_record_spec 170 1 (9995/10000) SOL_MINT USDC_MINT amount_to_swap_lamports 100
    (by norm_num) (by norm_num) (by decide) (by norm_num) (by norm_num) (by norm_num)
    (by decide) (by decide)).2

/-- C9: the venue bands of the random factor are `[0.9990, 0.9995]` for
Jupiter and `[0.9996, 1.0000]` for Raydium (the inheriting provider), so
for the same positive input amount and the same positive market prices,
any Raydium draw yields a strictly greater raw USD output than any
Jupiter draw, and a base-unit output amount at least as large. -/
theorem venue_band_comparison (input_price output_price : ℚ) (amount : ℤ) (fj fr : ℚ)
    (hip : 0 < input_price) (hop : 0 < output_price) (hamt : 0 < amount)
    (hfj1 : factor_lo "Jupiter" ≤ fj) (hfj2 : fj ≤ factor_hi "Jupiter")
    (hfr1 : factor_lo "Raydium" ≤ fr) (hfr2 : fr ≤ factor_hi "Raydium") :
    factor_lo "Jupiter" = 9990/10000 ∧ factor_hi "Jupiter" = 9995/10000 ∧
    factor_lo "Raydium" = 9996/10000 ∧ factor_hi "Raydium" = 1 ∧
    output_amount_usd_raw amount input_price fr > output_amount_usd_raw amount input_price fj ∧
    out_amount_base_units amount input_price output_price fr ≥
      out_amount_base_units amount input_price output_price fj := by
  have e1 : factor_lo "Jupiter" = 9990/10000 := rfl
  have e2 : factor_hi "Jupiter" = 9995/10000 := rfl
  have e3 : factor_lo "Raydium" = 9996/10000 := rfl
  have e4 : factor_hi "Raydium" = 1 := rfl
  have hfj' : fj ≤ 9995/10000 := e2 ▸ hfj2
  have hfr' : 9996/10000 ≤ fr := e3 ▸ hfr1
  have hcast : (0 : ℚ) < (amount : ℚ) := by exact_mod_cast hamt
  have hinp : 0 < input_amount_usd amount input_price := by
    unfold input_amount_usd
    exact mul_pos (div_pos hcast (by positivity)) hip
  have hraw : output_amount_usd_raw amount input_price fr >
      output_amount_usd_raw amount input_price fj := by
    unfold output_amount_usd_raw
    have hlt : fj < fr := lt_of_le_of_lt hfj' (lt_of_lt_of_le (by norm_num) hfr')
    exact mul_lt_mul_of_pos_left hlt hinp
  have hout : out_amount_base_units amount input_price output_price fj ≤
      out_amount_base_units amount input_price output_price fr := by
    unfold out_amount_base_units
    apply pyInt_mono
    apply mul_le_mul_of_nonneg_right _ (by positivity)
    exact (div_le_div_iff_of_pos_right hop).mpr (le_of_lt hraw)
  exact ⟨e1, e2, e3, e4, hraw, hout⟩

/-- A concrete instance of C9: at the band endpoints (Jupiter 0.9990,
Raydium 1.0000) with SOL at 170 and USDC at 1, Raydium dominates. -/
theorem venue_band_comparison_witness :
    output_amount_usd_raw amount_to_swap_lamports 170 1 >
      output_amount_usd_raw amount_to_swap_lamports 170 (9990/10000) ∧
    out_amount_base_units amount_to_swap_lamports 170 1 1 ≥
      out_amount_base_units amount_to_swap_lamports 170 1 (9990/10000) := by
  have h := venue_band_comparison 170 1 amount_to_swap_lamports (9990/10000) 1
    (by norm_num) (by norm_num) (by decide)
    (le_refl _) (show (9990/10000 : ℚ) ≤ 9995/10000 by norm_num)
    (show (9996/10000 : ℚ) ≤ 1 by norm_num) (le_refl _)
  exact ⟨h.2.2.2.2.1, h.2.2.2.2.2⟩

/-- C10: the stored USDC price is an invariant of the market-data state:
it starts at 1.0, no sequence of `get_price` / `get_liquidity_pool_apy`
operations (with any timer behaviour and any random draws) ever mutates
it, and `get_price` on the USDC mint always returns 1.0 and leaves the
state unchanged. -/
theorem usdc_price_invariant (ops : List MarketOp) :
    (applyOps initMarketState ops).prices USDC_MINT = some 1 ∧
    ∀ elapsed u,
      get_price (applyOps initMarketState ops) USDC_MINT elapsed u =
        (1, applyOps initMarketState ops) := by
  have key : ∀ (l : List MarketOp) (st : MarketState),
      st.prices USDC_MINT = some 1 → (applyOps st l).prices USDC_MINT = some 1 := by
    intro l
    induction l with
    | nil => intro st h; exact h
    | cons op rest ih =>
      intro st h
      show (applyOps (applyOp st op) rest).prices USDC_MINT = some 1
      apply ih
      cases op with
      | getApy ex pair u => exact h
      | getPrice mint elapsed u =>
        show (get_price st mint elapsed u).2.prices USDC_MINT = some 1
        unfold get_price
        by_cases hm : mint = USDC_MINT
        · rw [if_pos hm]; exact h
        · rw [if_neg hm]
          by_cases hs : (st.prices mint).isSome
          · rw [if_pos hs]
            have hne : ¬ USDC_MINT = mint := fun hc => hm hc.symm
            unfold simulate_fluctuation
            split
            · exact h
            · split
              · simpa [hne] using h
              · exact h
          · rw [if_neg hs]; exact h
  have h1 : initMarketState.prices USDC_MINT = some 1 := rfl
  have h2 := key ops initMarketState h1
  refine ⟨h2, ?_⟩
  intro elapsed u
  unfold get_price
  rw [if_pos rfl, h2]
  rfl

end DefiOptimizer
